import Mathlib

/-!
Verification of the spruce-settings resolution engine.

This file shallowly embeds `spruce/settings/_core.py` (class `Settings`),
the exception classes of `spruce/settings/_exc.py`, and the backend
contract consumed by the cache manager.  Python strings are Lean
`String`s; Python string primitives (`strip`, `split`, `replace`,
substring membership, `lower`) are re-implemented over `List Char` with
the same semantics for the non-empty patterns used by the code.
Mutable handle state becomes an explicit `SettingsState` record; backend
reads and writes are parameters (`Env`), and Python exceptions become an
`Except PyExc` result.  Object aliasing, which matters for `copy()`, is
modelled separately with an explicit cell store (`World`).
-/

namespace SpruceSettings

/-! ## Python string primitives -/

/-- Whitespace as recognised by Python `str.strip`. -/
def pySpace (c : Char) : Bool :=
  c = ' ' || c = '\t' || c = '\n' || c = '\x0d' || c = '\x0b' || c = '\x0c'

/-- `str.strip()`: drop leading and trailing whitespace. -/
def pyStripChars (s : List Char) : List Char :=
  ((s.dropWhile pySpace).reverse.dropWhile pySpace).reverse

def pyStrip (s : String) : String := ⟨pyStripChars s.data⟩

/-- Whether `s` starts with the pattern `p`. -/
def charsStartsWith : List Char → List Char → Bool
  | [], _ => true
  | _ :: _, [] => false
  | p :: ps, c :: cs => p = c && charsStartsWith ps cs

/-- Split `s` at the first occurrence of `sep`, returning the part before
it and the part after it, or `none` when `sep` does not occur. -/
def breakOnSep (sep : List Char) : List Char → Option (List Char × List Char)
  | [] => none
  | c :: cs =>
    if charsStartsWith sep (c :: cs) then some ([], (c :: cs).drop sep.length)
    else
      match breakOnSep sep cs with
      | some (l, r) => some (c :: l, r)
      | none => none

/-- Python substring membership `sep in s` (for non-empty `sep`). -/
def pyContains (sep s : List Char) : Bool := (breakOnSep sep s).isSome

/-- Fuelled worker for `str.split(sep)`; each step consumes at least one
character of the subject when `sep` is non-empty, so fuel `s.length`
suffices. -/
def pySplitFuel (sep : List Char) : Nat → List Char → List (List Char)
  | 0, s => [s]
  | fuel + 1, s =>
    match breakOnSep sep s with
    | none => [s]
    | some (l, r) => l :: pySplitFuel sep fuel r

/-- Python `str.split(sep)` for a non-empty separator. -/
def pySplitChars (sep s : List Char) : List (List Char) := pySplitFuel sep s.length s

/-- Fuelled worker for `str.replace(old, new)`. -/
def pyReplaceFuel (old new : List Char) : Nat → List Char → List Char
  | 0, s => s
  | fuel + 1, s =>
    match breakOnSep old s with
    | none => s
    | some (l, r) => l ++ new ++ pyReplaceFuel old new fuel r

/-- Python `str.replace(old, new)` for a non-empty `old`: replace all
non-overlapping occurrences, left to right. -/
def pyReplace (s old new : String) : String :=
  ⟨pyReplaceFuel old.data new.data s.data.length s.data⟩

/-- Python `str.lower()` (ASCII case folding, as used by `boolvalue`). -/
def pyLower (s : String) : String := ⟨s.data.map Char.toLower⟩

/-! ## Python dict and set primitives

The cache is a Python dict from key to value-or-`None`; the dirty-key
collection is a Python set.  Dicts are association lists where
assignment overwrites in place or appends; sets are duplicate-free lists
where `add` appends when absent. -/

def dget {α : Type} (d : List (String × α)) (k : String) : Option α :=
  (d.find? (fun p => p.1 = k)).map (fun p => p.2)

def dset {α : Type} : List (String × α) → String → α → List (String × α)
  | [], k, v => [(k, v)]
  | p :: d, k, v => if p.1 = k then (k, v) :: d else p :: dset d k v

def ddel {α : Type} (d : List (String × α)) (k : String) : List (String × α) :=
  d.filter (fun p => p.1 ≠ k)

/-- `dict.update(d2)`: assign every entry of `d2` into `d`, in order. -/
def dupdate {α : Type} (d d2 : List (String × α)) : List (String × α) :=
  d2.foldl (fun acc p => dset acc p.1 p.2) d

def setAdd (s : List String) (k : String) : List String :=
  if s.contains k then s else s ++ [k]

/-! ## Exceptions (`spruce/settings/_exc.py` and the Python built-ins
raised by the core) -/

inductive PyExc where
  | malformedSettingsLocation (location : Option String) (message : Option String)
  | missingRequiredSettingsValue (key : String) (type : Option String)
      (locations : List String)
  | invalidSettingsValue (key : String) (value : String) (type : Option String)
      (message : Option String)
  | attributeError (name : String)
  | assertionError
  | notImplementedError
  | otherError
  deriving DecidableEq, Repr

/-! ## Settings handle state (`Settings.__init__` instance attributes) -/

structure SettingsState where
  organization : String
  application : Option String
  subsystem : Option String
  format : String
  base_scope : String
  base_scope_fallback : Bool
  /-- `_component_fallback_enabled[('subsystem', 'application')]` -/
  fb_sub_app : Bool
  /-- `_component_fallback_enabled[('subsystem', 'organization')]` -/
  fb_sub_org : Bool
  /-- `_component_fallback_enabled[('application', 'organization')]` -/
  fb_app_org : Bool
  cache : List (String × Option String)
  cache_creationtime : Option Int
  cache_lifespan : Option Int
  component_scope : String
  defaults : List (String × String)
  deleting : Bool
  group : Option String
  keys_in_primarylocation : List String
  keystowrite : List String
  locations : List String
  previous_groups : List String
  deriving DecidableEq, Repr

/-- `component_scope` as derived in `__init__`: `subsystem` if a subsystem
is given, else `application` if an application is given, else
`organization`. -/
def componentScopeOf (application subsystem : Option String) : String :=
  if subsystem.isSome then "subsystem"
  else if application.isSome then "application"
  else "organization"

/-- The `group` property: the current group, or an empty string when
`_group` is `None`. -/
def groupProp (st : SettingsState) : String :=
  match st.group with
  | none => ""
  | some g => g

/-- `Settings.absname`: resolve a relative name against the current group. -/
def absname (st : SettingsState) (name : String) : String :=
  if groupProp st = "" then name else groupProp st ++ "/" ++ name

/-- `_component_fallback_enabled` lookup for the pairs that `sync` can
form. -/
def fallbackEnabled (st : SettingsState) (lesser greater : String) : Bool :=
  if lesser = "subsystem" && greater = "application" then st.fb_sub_app
  else if lesser = "subsystem" && greater = "organization" then st.fb_sub_org
  else if lesser = "application" && greater = "organization" then st.fb_app_org
  else false

/-- `Settings._greater_components`. -/
def greaterComponents (component : String) : List String :=
  if component = "organization" then []
  else (if component = "subsystem" then ["application"] else []) ++ ["organization"]

/-! ## Backend environment

`register_format` stores an extension and a read/write function pair;
`set_path` fills the path table.  `σ` is the backend's own mutable
state (for example the stored settings of the in-memory backend); reads
return a mapping and leave it unchanged, writes return an updated one.
Either may fail with a Python exception. -/

structure Env (σ : Type) where
  /-- The path table `Settings._paths[format][base_scope][component_scope]`. -/
  paths : String → String → String → String
  /-- The registered format's file extension. -/
  extension : String
  /-- The registered format's `read_func`. -/
  readF : String → List String → σ → Except PyExc (List (String × Option String))
  /-- The registered format's `write_func`. -/
  writeF : String → List (String × Option String) → σ → Except PyExc σ

/-! ## Location resolution (`Settings.sync`, lines 1054-1085) -/

/-- The placeholder substitution loop at the end of the location
computation: `{organization}` always, `{application}` and `{subsystem}`
only when the handle provides them, then `{extension}`. -/
def substLocation (st : SettingsState) (ext : String) (loc : String) : String :=
  let l := pyReplace loc "{organization}" st.organization
  let l := match st.application with
           | some a => pyReplace l "{application}" a
           | none => l
  let l := match st.subsystem with
           | some s => pyReplace l "{subsystem}" s
           | none => l
  pyReplace l "{extension}" ext

/-- The ordered location list built at the start of `sync`: the primary
location, the enabled greater component scopes for the handle's base
scope, and, when the base scope is `user` with base-scope fallback on,
the same sequence again for the `system` base scope; each template then
goes through placeholder substitution. -/
def computeLocations (paths : String → String → String → String) (ext : String)
    (st : SettingsState) : List String :=
  let locs :=
    paths st.format st.base_scope st.component_scope ::
      ((greaterComponents st.component_scope).filter
          (fun g => fallbackEnabled st st.component_scope g)).map
        (fun g => paths st.format st.base_scope g)
  let locs :=
    locs ++
      (if st.base_scope = "user" && st.base_scope_fallback then
        paths st.format "system" st.component_scope ::
          ((greaterComponents st.component_scope).filter
              (fun g => fallbackEnabled st st.component_scope g)).map
            (fun g => paths st.format "system" g)
      else [])
  locs.map (substLocation st ext)

/-! ## Cache manager (`Settings.sync`, `Settings._cache`) -/

/-- The cache-rebuild loop of `sync`: iterate the reversed location list
with its index, read everything (`['']`) at each location, merge into
the cache so later (higher-precedence) reads overwrite, and at the last
index — which is the primary location — record the keys present there.
A backend error of type `MalformedSettingsLocation` is caught by the
`except` clause, whose handler evaluates `exc.message_`; no such
attribute exists on the exception, so an `AttributeError` is raised.
Other backend errors propagate unchanged. -/
def readLocations {σ : Type} (env : Env σ) (n : Nat) (s0 : σ) :
    List (Nat × String) → List (String × Option String) → List String →
    Except PyExc (List (String × Option String) × List String)
  | [], cache, kip => .ok (cache, kip)
  | (i, loc) :: rest, cache, kip =>
    match env.readF loc [""] s0 with
    | .error (.malformedSettingsLocation _ _) => .error (.attributeError "message_")
    | .error e => .error e
    | .ok m =>
      readLocations env n s0 rest (dupdate cache m)
        (if i = n - 1 then m.map (fun p => p.1) else kip)

/-- `Settings.sync`: recompute and store the location list; if a clear-all
is pending (`''` among the keys to write), write `{'': None}` to the
primary location (this backend call is not wrapped by any `except`
clause) and drop the sentinel; write the cache entries of the remaining
keys to write to the primary location, converting a
`MalformedSettingsLocation` into the `AttributeError` its handler
actually raises; then, unless the handle is being deleted, rebuild the
cache from the flattened defaults and a read of every location in
reverse precedence order, and stamp the cache creation time. -/
def sync {σ : Type} (env : Env σ) (now : Int) (st : SettingsState) (s0 : σ) :
    Except PyExc (SettingsState × σ) :=
  let locations := computeLocations env.paths env.extension st
  let st0 := { st with locations := locations }
  let clearStep : Except PyExc (SettingsState × σ) :=
    if st0.keystowrite.contains "" then
      if dget st0.cache "" = some none then
        match env.writeF (st0.locations.headD "") [("", none)] s0 with
        | .error e => .error e
        | .ok s1 =>
          .ok ({ st0 with keystowrite := st0.keystowrite.filter (fun k => k ≠ ""),
                          cache := ddel st0.cache "" }, s1)
      else .error .assertionError
    else .ok (st0, s0)
  match clearStep with
  | .error e => .error e
  | .ok (st1, s1) =>
    match env.writeF (st1.locations.headD "")
        (st1.cache.filter (fun p => st1.keystowrite.contains p.1)) s1 with
    | .error (.malformedSettingsLocation _ _) => .error (.attributeError "message_")
    | .error e => .error e
    | .ok s2 =>
      if st1.deleting then .ok (st1, s2)
      else
        match readLocations env st1.locations.length s2 st1.locations.reverse.enum
            (st1.defaults.map (fun p => (p.1, some p.2)))
            st1.keys_in_primarylocation with
        | .error e => .error e
        | .ok (cache, kip) =>
          .ok ({ st1 with cache := cache, keys_in_primarylocation := kip,
                          cache_creationtime := some now }, s2)

/-- The expiry test inside the `_cache` property: a sync is due exactly
when a lifespan is configured and the creation time is unset or earlier
than `now` minus the lifespan. -/
def cacheNeedsSync (lifespan creation : Option Int) (now : Int) : Bool :=
  match lifespan with
  | none => false
  | some l =>
    match creation with
    | none => true
    | some c => decide (c < now - l)

/-- The `_cache` property: run `sync` first when the cache is missing or
expired, then expose the cache dict (here: the updated state). -/
def cacheProp {σ : Type} (env : Env σ) (now : Int) (st : SettingsState) (s0 : σ) :
    Except PyExc (SettingsState × σ) :=
  if cacheNeedsSync st.cache_lifespan st.cache_creationtime now then sync env now st s0
  else .ok (st, s0)

/-! ## Settings facade -/

/-- `Settings.value`: go through the `_cache` property, resolve the key
against the current group, and return the cached string when the key is
present with a non-`None` value; otherwise raise
`MissingRequiredSettingsValue` with the key and the location list when
required, else return the default. -/
def value {σ : Type} (env : Env σ) (now : Int) (st : SettingsState) (s0 : σ)
    (key : String) (default : Option String) (required : Bool) :
    Except PyExc (SettingsState × σ × Option String) :=
  match cacheProp env now st s0 with
  | .error e => .error e
  | .ok (st1, s1) =>
    let abskey := absname st1 key
    match dget st1.cache abskey with
    | some (some v) => .ok (st1, s1, some v)
    | _ =>
      if required then
        .error (.missingRequiredSettingsValue abskey none st1.locations)
      else .ok (st1, s1, default)

/-- `Settings.boolvalue`: fetch via `value`; when found, lowercase the
string and match it against the accepted boolean literals, raising
`InvalidSettingsValue` with type label `boolean` otherwise. -/
def boolvalue {σ : Type} (env : Env σ) (now : Int) (st : SettingsState) (s0 : σ)
    (key : String) (default : Option Bool) (required : Bool) :
    Except PyExc (SettingsState × σ × Option Bool) :=
  match value env now st s0 key none false with
  | .error e => .error e
  | .ok (st1, s1, v) =>
    match v with
    | none =>
      if required then
        .error (.missingRequiredSettingsValue (absname st1 key) (some "boolean")
                  st1.locations)
      else .ok (st1, s1, default)
    | some s =>
      if ["true", "1", "yes", "on"].contains (pyLower s) then .ok (st1, s1, some true)
      else if ["false", "0", "no", "off"].contains (pyLower s) then
        .ok (st1, s1, some false)
      else .error (.invalidSettingsValue (absname st1 key) s (some "boolean") none)

/-- `value[0] == '[' and value[-1] == ']' or ...`: the matching bracket
pair test of `listvalue`. -/
def bracketPair (a b : Char) : Bool :=
  (a = '[' && b = ']') || (a = '(' && b = ')') || (a = '{' && b = '}')

/-- The string-to-list conversion of `Settings.listvalue`, applied to a
found value: strip whitespace; an empty string is the empty list; strip
one layer of surrounding brackets when the length is at least two and
the ends are a matching pair; without a separator occurrence the result
is a singleton (or empty when nothing remains); otherwise split on the
separator and strip each item. -/
def listvalueChars (sep v : List Char) : List (List Char) :=
  let v := pyStripChars v
  if v.length = 0 then []
  else
    let v :=
      if 2 ≤ v.length && bracketPair (v.headD ' ') (v.getLastD ' ') then
        (v.drop 1).dropLast
      else v
    if pyContains sep v = false then
      if v.isEmpty = false then [v] else []
    else (pySplitChars sep v).map pyStripChars

def listvalueConvert (sep v : String) : List String :=
  (listvalueChars sep.data v.data).map (fun l => ⟨l⟩)

/-- `Settings.listvalue`: fetch via `value` and convert the found string
with `listvalueChars`. -/
def listvalue {σ : Type} (env : Env σ) (now : Int) (st : SettingsState) (s0 : σ)
    (key : String) (default : Option (List String)) (required : Bool) (sep : String) :
    Except PyExc (SettingsState × σ × Option (List String)) :=
  match value env now st s0 key none false with
  | .error e => .error e
  | .ok (st1, s1, v) =>
    match v with
    | none =>
      if required then
        .error (.missingRequiredSettingsValue (absname st1 key) (some "list")
                  st1.locations)
      else .ok (st1, s1, default)
    | some s => .ok (st1, s1, some (listvalueConvert sep s))

/-- `Settings.contains`: membership of the caller-supplied key, as given,
in the cache dict. -/
def contains {σ : Type} (env : Env σ) (now : Int) (st : SettingsState) (s0 : σ)
    (key : String) : Except PyExc (SettingsState × σ × Bool) :=
  match cacheProp env now st s0 with
  | .error e => .error e
  | .ok (st1, s1) => .ok (st1, s1, (dget st1.cache key).isSome)

/-- `Settings.remove`: map the caller-supplied key, as given, to `None`
in the cache and add it to the keys to write. -/
def remove {σ : Type} (env : Env σ) (now : Int) (st : SettingsState) (s0 : σ)
    (key : String) : Except PyExc (SettingsState × σ) :=
  match cacheProp env now st s0 with
  | .error e => .error e
  | .ok (st1, s1) =>
    .ok ({ st1 with cache := dset st1.cache key none,
                    keystowrite := setAdd st1.keystowrite key }, s1)

/-- `Settings.set_value` for a string value: resolve the key against the
current group, assign into the cache, and record the absolute key both
among the keys in the primary location and among the keys to write. -/
def set_value {σ : Type} (env : Env σ) (now : Int) (st : SettingsState) (s0 : σ)
    (key v : String) : Except PyExc (SettingsState × σ) :=
  let abskey := absname st key
  match cacheProp env now st s0 with
  | .error e => .error e
  | .ok (st1, s1) =>
    .ok ({ st1 with cache := dset st1.cache abskey (some v),
                    keys_in_primarylocation := setAdd st1.keys_in_primarylocation abskey,
                    keystowrite := setAdd st1.keystowrite abskey }, s1)

/-! ## Group scoping (`Settings.ingroup`)

`ingroup` is a `contextlib.contextmanager` generator.  Entering runs the
code before `yield`; a normal exit resumes the generator and runs the
code after `yield`.  When the body raises, `__exit__` throws the
exception into the generator at the `yield`; the generator has no
`try/finally`, so the exception propagates at once and the code after
`yield` never runs. -/

def ingroupEnter (grp : Option String) (st : SettingsState) : SettingsState :=
  match grp with
  | none => st
  | some g =>
    if g = "" then st
    else if groupProp st = "" then { st with group := some g }
    else { st with previous_groups := st.previous_groups ++ [groupProp st],
                   group := some (groupProp st ++ "/" ++ g) }

def ingroupExit (grp : Option String) (st : SettingsState) : SettingsState :=
  match grp with
  | none => st
  | some g =>
    if g = "" then st
    else
      match st.previous_groups.getLast? with
      | some p => { st with previous_groups := st.previous_groups.dropLast,
                            group := some p }
      | none => { st with group := none }

/-- Run a body inside a `with settings.ingroup(grp)` block.  The body
receives the mutated state and either returns normally or raises; on a
raise the generator's post-`yield` restoration is skipped. -/
def ingroupRun (grp : Option String)
    (body : SettingsState → SettingsState × Except PyExc Unit)
    (st : SettingsState) : SettingsState × Except PyExc Unit :=
  let st1 := ingroupEnter grp st
  let (st2, r) := body st1
  match r with
  | .ok _ => (ingroupExit grp st2, .ok ())
  | .error e => (st2, .error e)

/-! ## Object identity and `Settings.copy`

`copy()` builds a fresh `Settings` instance, then rebinds three of its
attributes to the very objects held by the original:
`settings._previous_groups = self._previous_groups`,
`settings._keystowrite = self._keystowrite`, and
`settings._keys_in_primarylocation = self._keys_in_primarylocation`.
To express which mutable objects two handles share, handles hold cell
indices into an explicit store, and the mutators update the store. -/

structure World where
  /-- Python `set` objects (`_keystowrite`, `_keys_in_primarylocation`). -/
  sets : List (List String)
  /-- Python `list` objects (`_previous_groups`). -/
  lists : List (List String)
  /-- Python `dict` objects (`_cache_`). -/
  dicts : List (List (String × Option String))
  deriving DecidableEq, Repr

def World.empty : World := ⟨[], [], []⟩

def World.allocSet (w : World) (v : List String) : World × Nat :=
  ({ w with sets := w.sets ++ [v] }, w.sets.length)

def World.allocList (w : World) (v : List String) : World × Nat :=
  ({ w with lists := w.lists ++ [v] }, w.lists.length)

def World.allocDict (w : World) (v : List (String × Option String)) : World × Nat :=
  ({ w with dicts := w.dicts ++ [v] }, w.dicts.length)

def World.getSet (w : World) (r : Nat) : List String := w.sets.getD r []

def World.putSet (w : World) (r : Nat) (v : List String) : World :=
  { w with sets := w.sets.set r v }

def World.getList (w : World) (r : Nat) : List String := w.lists.getD r []

def World.putList (w : World) (r : Nat) (v : List String) : World :=
  { w with lists := w.lists.set r v }

def World.getDict (w : World) (r : Nat) : List (String × Option String) :=
  w.dicts.getD r []

def World.putDict (w : World) (r : Nat) (v : List (String × Option String)) : World :=
  { w with dicts := w.dicts.set r v }

/-- A settings handle in the store-based model: the attributes that the
code only ever rebinds or reads (strings, options, the location list,
the creation time) by value, the mutable collections by cell index. -/
structure Handle where
  organization : String
  application : Option String
  subsystem : Option String
  format : String
  base_scope : String
  base_scope_fallback : Bool
  fb_sub_app : Bool
  fb_sub_org : Bool
  fb_app_org : Bool
  cache_creationtime : Option Int
  cache_lifespan : Option Int
  group : Option String
  defaults : List (String × String)
  deleting : Bool
  locations : List String
  cacheRef : Nat
  keystowriteRef : Nat
  keysInPrimaryRef : Nat
  prevGroupsRef : Nat
  deriving DecidableEq, Repr

/-- `Settings.__init__`: every mutable collection is freshly allocated —
an empty cache dict, empty key sets, an empty previous-groups list —
the cache creation time is unset, and the cache lifespan is six
seconds. -/
def Handle.init (w : World) (org : String) (app sub : Option String)
    (fmt bscope : String) : World × Handle :=
  let (w, cacheRef) := w.allocDict []
  let (w, ktwRef) := w.allocSet []
  let (w, kipRef) := w.allocSet []
  let (w, pgRef) := w.allocList []
  (w, { organization := org, application := app, subsystem := sub, format := fmt,
        base_scope := bscope, base_scope_fallback := true,
        fb_sub_app := true, fb_sub_org := true, fb_app_org := true,
        cache_creationtime := none, cache_lifespan := some 6,
        group := none, defaults := [], deleting := false, locations := [],
        cacheRef := cacheRef, keystowriteRef := ktwRef,
        keysInPrimaryRef := kipRef, prevGroupsRef := pgRef })

def Handle.groupProp (h : Handle) : String :=
  match h.group with
  | none => ""
  | some g => g

def Handle.absname (h : Handle) (name : String) : String :=
  if h.groupProp = "" then name else h.groupProp ++ "/" ++ name

/-- `Settings.copy`: construct a fresh handle with the same
configuration (defaults flattened anew, fallback flags and lifespan
copied by value, `settings._group = self.group` copying the group
property's string), then rebind its previous-groups list, keys-to-write
set, and keys-in-primary-location set to the original's objects.  The
cache dict of the new instance stays fresh, as do its unset creation
time and empty location list. -/
def Handle.copy (w : World) (h : Handle) : World × Handle :=
  let (w1, nh) := Handle.init w h.organization h.application h.subsystem
      h.format h.base_scope
  (w1, { nh with defaults := h.defaults, cache_lifespan := h.cache_lifespan,
                 base_scope_fallback := h.base_scope_fallback,
                 fb_sub_app := h.fb_sub_app, fb_sub_org := h.fb_sub_org,
                 fb_app_org := h.fb_app_org,
                 group := some h.groupProp,
                 prevGroupsRef := h.prevGroupsRef,
                 keystowriteRef := h.keystowriteRef,
                 keysInPrimaryRef := h.keysInPrimaryRef })

/-- Read a handle's full state out of the store, deriving the component
scope as `__init__` does. -/
def Handle.toState (w : World) (h : Handle) : SettingsState :=
  { organization := h.organization, application := h.application,
    subsystem := h.subsystem, format := h.format, base_scope := h.base_scope,
    base_scope_fallback := h.base_scope_fallback,
    fb_sub_app := h.fb_sub_app, fb_sub_org := h.fb_sub_org,
    fb_app_org := h.fb_app_org,
    cache := w.getDict h.cacheRef,
    cache_creationtime := h.cache_creationtime,
    cache_lifespan := h.cache_lifespan,
    component_scope := componentScopeOf h.application h.subsystem,
    defaults := h.defaults, deleting := h.deleting, group := h.group,
    keys_in_primarylocation := w.getSet h.keysInPrimaryRef,
    keystowrite := w.getSet h.keystowriteRef,
    locations := h.locations,
    previous_groups := w.getList h.prevGroupsRef }

/-- `Settings.sync` in the store-based model, against a backend whose
reads are total and whose writes always succeed, as the in-memory
backend's are (the backend store itself is not tracked here; only the
handle's objects matter for aliasing).  Store the recomputed location
list; run the pending clear-all if any, failing (`none`) when its
assertions do not hold; the dirty-key write succeeds; then, unless the
handle is being deleted, rebuild the cache object in place from the
defaults and the reversed location reads, REBIND
`_keys_in_primarylocation` to a freshly allocated set holding the keys
read at the primary location, and stamp the creation time. -/
def Handle.syncW (paths : String → String → String → String) (ext : String)
    (readAll : String → List (String × Option String)) (now : Int)
    (w : World) (h : Handle) : Option (World × Handle) :=
  let h1 := { h with locations := computeLocations paths ext (Handle.toState w h) }
  let clearStep : Option (World × Handle) :=
    if (w.getSet h1.keystowriteRef).contains "" then
      if dget (w.getDict h1.cacheRef) "" = some none then
        let w := w.putSet h1.keystowriteRef
            ((w.getSet h1.keystowriteRef).filter (fun k => k ≠ ""))
        some (w.putDict h1.cacheRef (ddel (w.getDict h1.cacheRef) ""), h1)
      else none
    else some (w, h1)
  match clearStep with
  | none => none
  | some (w, h1) =>
    if h1.deleting then some (w, h1)
    else
      let cache := h1.locations.reverse.foldl
          (fun acc loc => dupdate acc (readAll loc))
          (h1.defaults.map (fun p => (p.1, some p.2)))
      let w := w.putDict h1.cacheRef cache
      let (w, kipRef) := w.allocSet
          ((readAll (h1.locations.headD "")).map (fun p => p.1))
      some (w, { h1 with keysInPrimaryRef := kipRef,
                         cache_creationtime := some now })

/-- The `_cache` property in the store-based model: sync first exactly
when the lifespan is configured and the cache is unpopulated or
expired. -/
def Handle.cachePropW (paths : String → String → String → String) (ext : String)
    (readAll : String → List (String × Option String)) (now : Int)
    (w : World) (h : Handle) : Option (World × Handle) :=
  if cacheNeedsSync h.cache_lifespan h.cache_creationtime now then
    Handle.syncW paths ext readAll now w h
  else some (w, h)

/-- `Settings.set_value` in the store-based model: resolve the key
against the current group, go through the `_cache` property (which may
sync, rebinding this handle's keys-in-primary-location object), assign
into the cache object, and add the absolute key to the
keys-in-primary-location and keys-to-write objects. -/
def Handle.set_value (paths : String → String → String → String) (ext : String)
    (readAll : String → List (String × Option String)) (now : Int)
    (w : World) (h : Handle) (key v : String) : Option (World × Handle) :=
  let abskey := h.absname key
  match Handle.cachePropW paths ext readAll now w h with
  | none => none
  | some (w, h) =>
    let w := w.putDict h.cacheRef (dset (w.getDict h.cacheRef) abskey (some v))
    let w := w.putSet h.keysInPrimaryRef (setAdd (w.getSet h.keysInPrimaryRef) abskey)
    some (w.putSet h.keystowriteRef (setAdd (w.getSet h.keystowriteRef) abskey), h)

/-- Entering `ingroup(grp)` in the store-based model: a nested entry
appends the current group to the previous-groups object — the object
the handles share after a `copy()` — and extends the group string.  No
cache access happens here, so no sync is triggered. -/
def Handle.ingroupEnterW (w : World) (h : Handle) (grp : Option String) :
    World × Handle :=
  match grp with
  | none => (w, h)
  | some g =>
    if g = "" then (w, h)
    else if h.groupProp = "" then (w, { h with group := some g })
    else (w.putList h.prevGroupsRef (w.getList h.prevGroupsRef ++ [h.groupProp]),
          { h with group := some (h.groupProp ++ "/" ++ g) })

/-! ## The specification's own wording, for the refinement claims -/

/-- Modelled from the spec: the greater component scopes above a given
component scope, in strictly descending order
(subsystem > application > organization). -/
def specGreaterScopes : String → List String
  | "subsystem" => ["application", "organization"]
  | "application" => ["organization"]
  | _ => []

/-- Modelled from the spec: the ordered location list of section 4.3 —
the primary location for (base_scope, component_scope) first, then each
enabled greater component scope in descending order, then, when the
base scope is `user` and base-scope fallback is enabled, the same
sequence with base scope `system`, each template substituted. -/
def specLocations (paths : String → String → String → String) (ext : String)
    (st : SettingsState) : List String :=
  let seq := fun (base : String) =>
    paths st.format base st.component_scope ::
      ((specGreaterScopes st.component_scope).filter
          (fun g => fallbackEnabled st st.component_scope g)).map
        (fun g => paths st.format base g)
  ((if st.base_scope = "user" && st.base_scope_fallback then
      seq st.base_scope ++ seq "system"
    else seq st.base_scope)).map (substLocation st ext)

/-- Modelled from the spec: the `listvalue` conversion of section 4.5 —
trim whitespace; empty string to empty list; strip exactly one layer
when the trimmed string begins and ends with a matching bracket pair
among square, round, and curly brackets; a separator-free remainder is
a singleton unless empty; otherwise split on the separator and trim
each element. -/
def specListvalueChars (sep v : List Char) : List (List Char) :=
  let v := pyStripChars v
  if v.length = 0 then []
  else
    let v :=
      if bracketPair (v.headD ' ') (v.getLastD ' ') then (v.drop 1).dropLast
      else v
    if pyContains sep v = false then
      if v.isEmpty = false then [v] else []
    else (pySplitChars sep v).map pyStripChars

def specListvalueConvert (sep v : String) : List String :=
  (specListvalueChars sep.data v.data).map (fun l => ⟨l⟩)

/-! ## Named state-transition results

The record a successful `remove` or `set_value` produces, used to phrase
theorems about the calls that follow them. -/

def removeResult (st : SettingsState) (k : String) : SettingsState :=
  { st with cache := dset st.cache k none, keystowrite := setAdd st.keystowrite k }

def setValueResult (st : SettingsState) (k v : String) : SettingsState :=
  { st with cache := dset st.cache (absname st k) (some v),
            keys_in_primarylocation := setAdd st.keys_in_primarylocation (absname st k),
            keystowrite := setAdd st.keystowrite (absname st k) }

/-! ## Concrete fixtures for witnesses and counterexamples -/

/-- A handle state as `__init__` leaves it: derived component scope, all
fallbacks enabled, empty cache, six-second lifespan, no group. -/
def mkState (org : String) (app sub : Option String) : SettingsState :=
  { organization := org, application := app, subsystem := sub, format := "conf",
    base_scope := "user", base_scope_fallback := true,
    fb_sub_app := true, fb_sub_org := true, fb_app_org := true,
    cache := [], cache_creationtime := none, cache_lifespan := some 6,
    component_scope := componentScopeOf app sub, defaults := [], deleting := false,
    group := none, keys_in_primarylocation := [], keystowrite := [],
    locations := [], previous_groups := [] }

/-- A backend with no stored settings whose writes succeed and change
nothing. -/
def unitEnv : Env Unit :=
  { paths := fun f b c => f ++ ":" ++ b ++ ":" ++ c ++ ":{organization}{extension}",
    extension := ".conf",
    readF := fun _ _ _ => .ok [],
    writeF := fun _ _ s => .ok s }

/-- A backend whose state is the list of write calls received, so that a
theorem can talk about which mappings `sync` wrote where. -/
def traceEnv : Env (List (String × List (String × Option String))) :=
  { paths := fun f b c => f ++ ":" ++ b ++ ":" ++ c,
    extension := "",
    readF := fun _ _ _ => .ok [],
    writeF := fun loc m tr => .ok (tr ++ [(loc, m)]) }

/-- A backend whose every read raises
`MalformedSettingsLocation(message='bad line')` without a location. -/
def malformedReadEnv : Env Unit :=
  { paths := fun f b c => f ++ ":" ++ b ++ ":" ++ c,
    extension := "",
    readF := fun _ _ _ => .error (.malformedSettingsLocation none (some "bad line")),
    writeF := fun _ _ s => .ok s }

/-- A backend whose every write raises `MalformedSettingsLocation` with
neither location nor message. -/
def malformedWriteEnv : Env Unit :=
  { paths := fun f b c => f ++ ":" ++ b ++ ":" ++ c,
    extension := "",
    readF := fun _ _ _ => .ok [],
    writeF := fun _ _ _ => .error (.malformedSettingsLocation none none) }

def stC1 : SettingsState := mkState "acme" (some "widget") (some "sub")

def syncC1res : SettingsState × Unit :=
  (sync unitEnv 0 stC1 ()).toOption.getD (stC1, ())

def stC2 : SettingsState :=
  { mkState "acme" (some "widget") none with
      cache := [("k", some "v")], keystowrite := ["k"] }

def stC3 : SettingsState := mkState "acme" (some "widget") none

def stC3clear : SettingsState :=
  { mkState "acme" (some "widget") none with
      cache := [("", none)], keystowrite := [""] }

def stC4 : SettingsState := mkState "acme" (some "widget") none

def c5start : World × Handle :=
  Handle.init World.empty "acme" (some "widget") none "inmemory" "user"

def c5copied : World × Handle := Handle.copy c5start.1 c5start.2

def c5paths : String → String → String → String :=
  fun f b c => f ++ ":" ++ b ++ ":" ++ c

def c5read : String → List (String × Option String) := fun _ => []

/-- The store and original handle after the original assigns a value
once the copy exists; the internal `_cache`-property sync of the
six-second-lifespan, never-synced handle runs first. -/
def c5mutated : World × Handle :=
  (Handle.set_value c5paths "" c5read 0 c5copied.1 c5start.2 "k" "v").getD
    (World.empty, c5start.2)

def c5nestedA : World × Handle :=
  Handle.ingroupEnterW c5mutated.1 c5mutated.2 (some "A")

/-- The store after the original, with the copy still live, nests
`ingroup('A')` then `ingroup('B')`: the second entry pushes onto the
shared previous-groups object. -/
def c5nested : World × Handle :=
  Handle.ingroupEnterW c5nestedA.1 c5nestedA.2 (some "B")

def stC6 : SettingsState :=
  { mkState "acme" (some "widget") none with
      cache_lifespan := some 3, cache_creationtime := some 2 }

def stC7 : SettingsState :=
  { mkState "acme" (some "widget") none with
      cache := [("k", some "YES")], cache_lifespan := none }

def stC7f : SettingsState :=
  { mkState "acme" (some "widget") none with
      cache := [("k", some "Off")], cache_lifespan := none }

def stC7x : SettingsState :=
  { mkState "acme" (some "widget") none with
      cache := [("k", some "maybe")], cache_lifespan := none }

/-- A handle inside the current group `G` whose cache holds `G/k`. -/
def stC9 : SettingsState :=
  { mkState "acme" (some "widget") none with
      group := some "G", cache := [("G/k", some "v")], cache_lifespan := none }

def stC9w : SettingsState :=
  { mkState "acme" (some "widget") none with
      cache := [("k", some "v")], cache_lifespan := none }

def stC10 : SettingsState :=
  { mkState "acme" (some "widget") none with
      group := some "G", cache := [("G/k", some "v")], cache_lifespan := none }

/-- The state `remove('k')` leaves behind on the in-group fixture. -/
def stC9r : SettingsState := removeResult stC9 "k"

/-! # Lemmas about the dict, set, and store primitives -/

theorem dget_nil {α : Type} (k : String) : dget ([] : List (String × α)) k = none := rfl

theorem dget_cons {α : Type} (p : String × α) (d : List (String × α)) (k : String) :
    dget (p :: d) k = if p.1 = k then some p.2 else dget d k := by
  by_cases h : p.1 = k
  · simp [dget, List.find?_cons_of_pos, h]
  · simp [dget, List.find?_cons_of_neg, h]

theorem dget_dset_self {α : Type} (d : List (String × α)) (k : String) (v : α) :
    dget (dset d k v) k = some v := by
  induction d with
  | nil => simp [dset, dget_cons]
  | cons p d ih =>
    by_cases h : p.1 = k
    · simp [dset, h, dget_cons]
    · simp [dset, h, dget_cons, ih]

theorem dget_dset_ne {α : Type} (d : List (String × α)) (k k2 : String) (v : α)
    (h : k2 ≠ k) : dget (dset d k v) k2 = dget d k2 := by
  induction d with
  | nil =>
    simp only [dset, dget_cons, dget_nil]
    rw [if_neg (fun hh => h hh.symm)]
  | cons p d ih =>
    by_cases hp : p.1 = k
    · simp only [dset, hp, if_true, dget_cons]
      rw [if_neg (fun hh => h hh.symm), if_neg (fun hh => h hh.symm)]
    · simp only [dset, hp, if_false, dget_cons, ih]

theorem mem_setAdd_self (s : List String) (k : String) : k ∈ setAdd s k := by
  unfold setAdd
  by_cases hc : s.contains k = true
  · rw [if_pos hc]
    exact List.mem_of_elem_eq_true hc
  · rw [if_neg hc]
    exact List.mem_append_right _ (List.mem_singleton.mpr rfl)

theorem getD_set_ne {α : Type} (l : List α) (i j : Nat) (x d : α) (hij : i ≠ j) :
    (l.set i x).getD j d = l.getD j d := by
  simp [List.getD_eq_getElem?_getD, List.getElem?_set_ne hij]

/-! # Lemmas relating the embedded code to the specification text -/

theorem bracketPair_self (c : Char) : bracketPair c c = false := by
  rcases eq_or_ne c '[' with h | h
  · subst h; decide
  rcases eq_or_ne c '(' with h2 | h2
  · subst h2; decide
  rcases eq_or_ne c '{' with h3 | h3
  · subst h3; decide
  simp [bracketPair, h, h2, h3]

/-- The code guards its bracket stripping with a length check the spec
leaves implicit; the two agree because no one-character string can
begin and end with a matching pair. -/
theorem listvalueChars_eq_spec (sep l : List Char) :
    listvalueChars sep l = specListvalueChars sep l := by
  unfold listvalueChars specListvalueChars
  cases h : pyStripChars l with
  | nil => simp
  | cons a rest =>
    cases rest with
    | nil => simp [bracketPair_self]
    | cons b rest2 => simp [Nat.le_add_left]

theorem computeLocations_eq_spec (paths : String → String → String → String)
    (ext : String) (st : SettingsState)
    (hwf : st.component_scope = componentScopeOf st.application st.subsystem) :
    computeLocations paths ext st = specLocations paths ext st := by
  have hg : greaterComponents st.component_scope = specGreaterScopes st.component_scope := by
    rw [hwf]
    unfold componentScopeOf
    cases st.subsystem <;> cases st.application <;>
      simp [greaterComponents, specGreaterScopes]
  unfold computeLocations specLocations
  rw [hg]
  cases hb : (st.base_scope = "user" && st.base_scope_fallback) <;> simp [hb]

theorem specLocations_ne_nil (paths : String → String → String → String)
    (ext : String) (st : SettingsState) : specLocations paths ext st ≠ [] := by
  unfold specLocations
  cases hb : (st.base_scope = "user" && st.base_scope_fallback) <;> simp [hb]

/-! # Lemmas about `sync` and the `_cache` property -/

/-- Every success path of `sync` carries the freshly computed location
list into the resulting state. -/
theorem sync_ok_locations {σ : Type} (env : Env σ) (now : Int) (st : SettingsState)
    (s0 : σ) (st2 : SettingsState) (s2 : σ)
    (h : sync env now st s0 = .ok (st2, s2)) :
    st2.locations = computeLocations env.paths env.extension st := by
  unfold sync at h
  dsimp only at h
  split at h
  · exact absurd h (by simp)
  · rename_i st1 s1 hclear
    split at h
    · exact absurd h (by simp)
    · exact absurd h (by simp)
    · rename_i s3 hw
      have hst1 : st1.locations = computeLocations env.paths env.extension st := by
        split at hclear
        · split at hclear
          · split at hclear
            · exact absurd hclear (by simp)
            · rename_i s4 hw2
              injection hclear with hp
              injection hp with hp1 hp2
              rw [← hp1]
          · exact absurd hclear (by simp)
        · injection hclear with hp
          injection hp with hp1 hp2
          rw [← hp1]
      split at h
      · injection h with hp
        injection hp with hp1 hp2
        rw [← hp1]
        exact hst1
      · split at h
        · exact absurd h (by simp)
        · rename_i cache kip hr
          injection h with hp
          injection hp with hp1 hp2
          rw [← hp1]
          exact hst1

/-- Against the tracing backend, the rebuild loop reads every location
without touching the trace and merges nothing into the cache. -/
theorem readLocations_trace (n : Nat) (s : List (String × List (String × Option String)))
    (l : List (Nat × String)) (cache : List (String × Option String)) (kip : List String) :
    ∃ kip2, readLocations traceEnv n s l cache kip = .ok (cache, kip2) := by
  induction l generalizing kip with
  | nil => exact ⟨kip, rfl⟩
  | cons p rest ih =>
    obtain ⟨kip2, hk⟩ := ih (if p.1 = n - 1 then [] else kip)
    refine ⟨kip2, ?_⟩
    unfold readLocations
    simpa [traceEnv, dupdate] using hk

/-- A full run of `sync` against the tracing backend, for a state with
no pending clear-all: the dirty cache entries go to the head location in
one write call, and the keys-to-write set comes out unchanged. -/
theorem sync_traceEnv_ok (st : SettingsState) (now : Int)
    (tr : List (String × List (String × Option String)))
    (h1 : st.keystowrite.contains "" = false) (h2 : st.deleting = false) :
    ∃ st2, sync traceEnv now st tr =
        .ok (st2, tr ++ [((computeLocations traceEnv.paths traceEnv.extension st).headD "",
                          st.cache.filter (fun p => st.keystowrite.contains p.1))])
      ∧ st2.keystowrite = st.keystowrite := by
  obtain ⟨kip2, hr⟩ := readLocations_trace
    (computeLocations traceEnv.paths traceEnv.extension st).length
    (tr ++ [((computeLocations traceEnv.paths traceEnv.extension st).headD "",
             st.cache.filter (fun p => st.keystowrite.contains p.1))])
    ({ st with locations := computeLocations traceEnv.paths traceEnv.extension st
     } : SettingsState).locations.reverse.enum
    (st.defaults.map (fun p => (p.1, some p.2))) st.keys_in_primarylocation
  dsimp only [traceEnv] at hr
  refine ⟨({ st with
              locations := computeLocations traceEnv.paths traceEnv.extension st,
              cache := st.defaults.map (fun p => (p.1, some p.2)),
              keys_in_primarylocation := kip2,
              cache_creationtime := some now } : SettingsState), ?_, rfl⟩
  unfold sync
  dsimp only
  rw [if_neg (by simp only [h1]; exact Bool.false_ne_true)]
  dsimp only [traceEnv]
  rw [if_neg (by simp only [h2]; exact Bool.false_ne_true)]
  rw [hr]

/-- With the cache lifespan disabled, the `_cache` property never syncs. -/
theorem cacheProp_no_lifespan {σ : Type} (env : Env σ) (now : Int) (st : SettingsState)
    (s0 : σ) (hl : st.cache_lifespan = none) : cacheProp env now st s0 = .ok (st, s0) := by
  unfold cacheProp
  rw [hl]
  rfl

/-! # The claims -/

/-- Claim C1: for a well-formed handle, every successful `sync` leaves a
non-empty location list equal to the specification's construction —
primary location first, then each enabled greater component scope in
descending order, then the same sequence over the `system` base scope
when the handle is user-scoped with base-scope fallback enabled, with
the handle's placeholders substituted into each template.  The list is
a function of the handle's configuration alone, so it is deterministic. -/
theorem C1_sync_locations {σ : Type} (env : Env σ) (now : Int) (st : SettingsState)
    (s0 : σ) (st2 : SettingsState) (s2 : σ)
    (hwf : st.component_scope = componentScopeOf st.application st.subsystem)
    (h : sync env now st s0 = .ok (st2, s2)) :
    st2.locations = specLocations env.paths env.extension st ∧ st2.locations ≠ [] := by
  have hl := sync_ok_locations env now st s0 st2 s2 h
  rw [computeLocations_eq_spec env.paths env.extension st hwf] at hl
  exact ⟨hl, hl ▸ specLocations_ne_nil env.paths env.extension st⟩

theorem C1_witness :
    syncC1res.1.locations = specLocations unitEnv.paths unitEnv.extension stC1
    ∧ syncC1res.1.locations ≠ [] :=
  C1_sync_locations unitEnv 0 stC1 () syncC1res.1 syncC1res.2 rfl rfl

/-- Claim C2, counterexample: a handle with dirty key `k` syncs
successfully — the write of `{k: v}` to the primary location is
recorded by the tracing backend — yet the set of keys pending write is
still `{k}` afterwards, not empty as claimed. -/
theorem C2_counterexample :
    (sync traceEnv 0 stC2 []).toOption.map (fun p => p.1.keystowrite) = some ["k"]
    ∧ (sync traceEnv 0 stC2 []).toOption.map (fun p => p.2) =
        some [("conf:user:application", [("k", some "v")])]
    ∧ (["k"] : List String) ≠ [] :=
  ⟨rfl, rfl, by decide⟩

/-- Claim C2 as amended: a successful `sync` writes the cache entries of
every dirty key to the primary (first) location, but the dirty-key set
is not cleared afterwards — it still holds every previously dirty key
(with only the clear-all sentinel removed; here no clear is pending, so
it is unchanged). -/
theorem C2_sync_keeps_dirty (st : SettingsState) (now : Int)
    (tr : List (String × List (String × Option String)))
    (h1 : st.keystowrite.contains "" = false) (h2 : st.deleting = false) :
    (sync traceEnv now st tr).toOption.map (fun p => p.1.keystowrite) =
      some st.keystowrite
    ∧ (sync traceEnv now st tr).toOption.map (fun p => p.2) =
        some (tr ++ [((computeLocations traceEnv.paths traceEnv.extension st).headD "",
                st.cache.filter (fun p => st.keystowrite.contains p.1))]) := by
  obtain ⟨st2, hs, hk⟩ := sync_traceEnv_ok st now tr h1 h2
  constructor
  · rw [hs]
    show some st2.keystowrite = some st.keystowrite
    rw [hk]
  · rw [hs]
    rfl

theorem C2_witness :
    (sync traceEnv 0 stC2 []).toOption.map (fun p => p.1.keystowrite) =
      some stC2.keystowrite
    ∧ (sync traceEnv 0 stC2 []).toOption.map (fun p => p.2) =
        some ([] ++ [((computeLocations traceEnv.paths traceEnv.extension stC2).headD "",
                stC2.cache.filter (fun p => stC2.keystowrite.contains p.1))]) :=
  C2_sync_keeps_dirty stC2 0 [] rfl rfl

/-- Claim C3, evaluated at the failing inputs: when a backend read (or
the dirty-key write) raises `MalformedSettingsLocation`, `sync` raises
`AttributeError` — the handler reads the nonexistent attribute
`message_` of the caught exception — instead of re-raising a
`MalformedSettingsLocation` carrying the location; and when the
clear-all write raises, the error propagates unwrapped, its location
still unset. -/
theorem C3_code_bug :
    sync malformedReadEnv 0 stC3 () = .error (.attributeError "message_")
    ∧ sync malformedWriteEnv 0 stC3 () = .error (.attributeError "message_")
    ∧ sync malformedWriteEnv 0 stC3clear () =
        .error (.malformedSettingsLocation none none) :=
  ⟨rfl, rfl, rfl⟩

/-- Claim C4, evaluated at the failing input: entering `ingroup('A')`
from no group and raising inside the body leaves the current group at
`A` — the generator has no `try/finally`, so the restoration after
`yield` is skipped — while a normal exit does restore it. -/
theorem C4_code_bug :
    (ingroupRun (some "A") (fun st => (st, .error .otherError)) stC4).1.group = some "A"
    ∧ stC4.group = none
    ∧ (ingroupRun (some "A") (fun st => (st, .ok ())) stC4).1.group = none :=
  ⟨rfl, rfl, rfl⟩

theorem World.getDict_putSet (w : World) (r : Nat) (v : List String) (r2 : Nat) :
    (w.putSet r v).getDict r2 = w.getDict r2 := rfl

theorem World.getDict_allocSet (w : World) (v : List String) (r2 : Nat) :
    (w.allocSet v).1.getDict r2 = w.getDict r2 := rfl

theorem World.getDict_putDict_ne (w : World) (r : Nat)
    (v : List (String × Option String)) (r2 : Nat) (h : r2 ≠ r) :
    (w.putDict r v).getDict r2 = w.getDict r2 :=
  getD_set_ne w.dicts r r2 v [] (fun he => h he.symm)

/-- `syncW` writes no dict cell other than the handle's own cache cell,
and it never rebinds the cache attribute. -/
theorem syncW_getDict_ne (paths : String → String → String → String) (ext : String)
    (readAll : String → List (String × Option String)) (now : Int)
    (w : World) (h : Handle) (r : Nat) (hr : r ≠ h.cacheRef)
    (w2 : World) (h2 : Handle)
    (hs : Handle.syncW paths ext readAll now w h = some (w2, h2)) :
    World.getDict w2 r = World.getDict w r ∧ h2.cacheRef = h.cacheRef := by
  unfold Handle.syncW at hs
  dsimp only at hs
  split at hs
  · exact Option.noConfusion hs
  · rename_i w1 h1 heq
    have hw1 : World.getDict w1 r = World.getDict w r ∧ h1.cacheRef = h.cacheRef := by
      split at heq
      · split at heq
        · injection heq with hp
          injection hp with hp1 hp2
          rw [← hp1, ← hp2]
          exact ⟨World.getDict_putDict_ne _ _ _ _ hr, rfl⟩
        · exact Option.noConfusion heq
      · injection heq with hp
        injection hp with hp1 hp2
        rw [← hp1, ← hp2]
        exact ⟨rfl, rfl⟩
    split at hs
    · injection hs with hp
      injection hp with hp1 hp2
      rw [← hp1, ← hp2]
      exact hw1
    · injection hs with hp
      injection hp with hp1 hp2
      rw [← hp1, ← hp2]
      have hrr : r ≠ h1.cacheRef := by
        rw [hw1.2]
        exact hr
      refine ⟨?_, hw1.2⟩
      rw [World.getDict_allocSet, World.getDict_putDict_ne _ _ _ _ hrr, hw1.1]

/-- The `_cache` property likewise touches no foreign dict cell and
keeps the cache attribute. -/
theorem cachePropW_getDict_ne (paths : String → String → String → String) (ext : String)
    (readAll : String → List (String × Option String)) (now : Int)
    (w : World) (h : Handle) (r : Nat) (hr : r ≠ h.cacheRef)
    (w1 : World) (h1 : Handle)
    (hs : Handle.cachePropW paths ext readAll now w h = some (w1, h1)) :
    World.getDict w1 r = World.getDict w r ∧ h1.cacheRef = h.cacheRef := by
  unfold Handle.cachePropW at hs
  split at hs
  · exact syncW_getDict_ne paths ext readAll now w h r hr w1 h1 hs
  · injection hs with hp
    injection hp with hp1 hp2
    rw [← hp1, ← hp2]
    exact ⟨rfl, rfl⟩

/-- A successful `set_value` through one handle — its internal property
sync included — leaves every dict cell other than that handle's own
cache cell untouched. -/
theorem set_value_getDict_ne (paths : String → String → String → String) (ext : String)
    (readAll : String → List (String × Option String)) (now : Int)
    (w : World) (h : Handle) (k v : String) (r : Nat) (hr : r ≠ h.cacheRef)
    (w2 : World) (h2 : Handle)
    (hs : Handle.set_value paths ext readAll now w h k v = some (w2, h2)) :
    World.getDict w2 r = World.getDict w r := by
  unfold Handle.set_value at hs
  dsimp only at hs
  cases hcp : Handle.cachePropW paths ext readAll now w h with
  | none =>
    rw [hcp] at hs
    exact absurd hs (by simp)
  | some p =>
    obtain ⟨w1, h1⟩ := p
    rw [hcp] at hs
    dsimp only at hs
    obtain ⟨hd, hcr⟩ := cachePropW_getDict_ne paths ext readAll now w h r hr w1 h1 hcp
    injection hs with hp
    injection hp with hp1 hp2
    rw [← hp1]
    rw [World.getDict_putSet, World.getDict_putSet,
        World.getDict_putDict_ne _ _ _ _ (hcr ▸ hr), hd]

/-- Claim C5, counterexample: the pending-write key set is shared live,
not as it stood at copy time — it is empty at copy time, and the
original's later `set_value` (its internal expiry sync included) makes
`k` appear in it through the copy — and it is not the only shared
state: nesting `ingroup` contexts on the original pushes onto the
previous-groups object the copy holds.  The copy's
keys-in-primary-location set stays empty here because that same sync
rebinds the original's attribute to a fresh set before the key is
added. -/
theorem C5_counterexample :
    c5copied.2.keystowriteRef = c5start.2.keystowriteRef
    ∧ World.getSet c5copied.1 c5copied.2.keystowriteRef = []
    ∧ Handle.set_value c5paths "" c5read 0 c5copied.1 c5start.2 "k" "v" =
        some (c5mutated.1, c5mutated.2)
    ∧ World.getSet c5mutated.1 c5copied.2.keystowriteRef = ["k"]
    ∧ c5copied.2.prevGroupsRef = c5start.2.prevGroupsRef
    ∧ World.getList c5nested.1 c5copied.2.prevGroupsRef = ["A"]
    ∧ World.getSet c5mutated.1 c5copied.2.keysInPrimaryRef = [] := by
  refine ⟨rfl, rfl, rfl, rfl, rfl, rfl, rfl⟩

/-- Claim C5 as amended: `copy()` yields a handle whose cache object is
fresh — a successful `set_value` through either handle, its internal
property sync included, never changes the other handle's cache cell —
but which aliases, live, three of the original's mutable objects: the
pending-write key set, the keys-in-primary-location set, and the
previous-groups list (the last aliasing holds until a handle's next
sync rebinds that handle's keys-in-primary-location attribute to a
fresh set). -/
theorem C5_copy_sharing (paths : String → String → String → String) (ext : String)
    (readAll : String → List (String × Option String)) (now : Int)
    (w : World) (h : Handle) (k v : String)
    (hc : h.cacheRef < w.dicts.length) :
    (Handle.copy w h).2.keystowriteRef = h.keystowriteRef
    ∧ (Handle.copy w h).2.keysInPrimaryRef = h.keysInPrimaryRef
    ∧ (Handle.copy w h).2.prevGroupsRef = h.prevGroupsRef
    ∧ (Handle.copy w h).2.cacheRef ≠ h.cacheRef
    ∧ (∀ w2 h2,
        Handle.set_value paths ext readAll now (Handle.copy w h).1 h k v
          = some (w2, h2) →
        World.getDict w2 (Handle.copy w h).2.cacheRef
          = World.getDict (Handle.copy w h).1 (Handle.copy w h).2.cacheRef)
    ∧ (∀ w2 h2,
        Handle.set_value paths ext readAll now (Handle.copy w h).1 (Handle.copy w h).2 k v
          = some (w2, h2) →
        World.getDict w2 h.cacheRef = World.getDict (Handle.copy w h).1 h.cacheRef) := by
  have href : (Handle.copy w h).2.cacheRef = w.dicts.length := rfl
  have hne : (Handle.copy w h).2.cacheRef ≠ h.cacheRef := by
    rw [href]
    exact fun he => absurd (he ▸ hc) (lt_irrefl _)
  refine ⟨rfl, rfl, rfl, hne, ?_, ?_⟩
  · intro w2 h2 hs
    exact set_value_getDict_ne paths ext readAll now (Handle.copy w h).1 h k v
      (Handle.copy w h).2.cacheRef hne w2 h2 hs
  · intro w2 h2 hs
    exact set_value_getDict_ne paths ext readAll now (Handle.copy w h).1
      (Handle.copy w h).2 k v h.cacheRef (fun he => hne he.symm) w2 h2 hs

theorem C5_witness :
    (Handle.copy c5start.1 c5start.2).2.keystowriteRef = c5start.2.keystowriteRef
    ∧ (Handle.copy c5start.1 c5start.2).2.keysInPrimaryRef = c5start.2.keysInPrimaryRef
    ∧ (Handle.copy c5start.1 c5start.2).2.prevGroupsRef = c5start.2.prevGroupsRef
    ∧ (Handle.copy c5start.1 c5start.2).2.cacheRef ≠ c5start.2.cacheRef
    ∧ World.getDict c5mutated.1 (Handle.copy c5start.1 c5start.2).2.cacheRef
        = World.getDict (Handle.copy c5start.1 c5start.2).1
            (Handle.copy c5start.1 c5start.2).2.cacheRef := by
  have hmain := C5_copy_sharing c5paths "" c5read 0 c5start.1 c5start.2 "k" "v" (by decide)
  exact ⟨hmain.1, hmain.2.1, hmain.2.2.1, hmain.2.2.2.1,
         hmain.2.2.2.2.1 c5mutated.1 c5mutated.2 rfl⟩

/-- Claim C6: the expiry test of the `_cache` property holds exactly when
a lifespan is configured and the cache was never populated or its age
exceeds the lifespan; every cache read runs this test first and syncs
exactly when it holds — so a `None` lifespan never triggers an
automatic sync, and a set lifespan triggers one on the first access
after it elapses. -/
theorem C6_lazy_sync (now : Int) (l c : Option Int) :
    (cacheNeedsSync l c now = true ↔
      l ≠ none ∧ (c = none ∨ ∃ lv cv, l = some lv ∧ c = some cv ∧ now - cv > lv))
    ∧ (∀ (σ : Type) (env : Env σ) (st : SettingsState) (s0 : σ),
        st.cache_lifespan = l → st.cache_creationtime = c →
        cacheProp env now st s0 =
          if cacheNeedsSync l c now then sync env now st s0 else .ok (st, s0)) := by
  constructor
  · cases l with
    | none => simp [cacheNeedsSync]
    | some lv =>
      cases c with
      | none => simp [cacheNeedsSync]
      | some cv =>
        simp [cacheNeedsSync]
        omega
  · intro σ env st s0 hl hc
    unfold cacheProp
    rw [hl, hc]

theorem C6_witness :
    cacheProp unitEnv 10 stC6 () = sync unitEnv 10 stC6 () := by
  have hp := (C6_lazy_sync 10 (some 3) (some 2)).2 Unit unitEnv stC6 () rfl rfl
  rw [hp]
  rfl

/-- Claim C7: on a cached string value, `boolvalue` returns true exactly
on a case-insensitive match of true, 1, yes, or on; false exactly on a
case-insensitive match of false, 0, no, or off; and otherwise raises
`InvalidSettingsValue` carrying the resolved key, the raw value, and
the type label `boolean`. -/
theorem C7_boolvalue {σ : Type} (env : Env σ) (now : Int) (st : SettingsState) (s0 : σ)
    (key s : String) (d : Option Bool) (r : Bool)
    (hl : st.cache_lifespan = none)
    (hk : dget st.cache (absname st key) = some (some s)) :
    boolvalue env now st s0 key d r =
      (if ["true", "1", "yes", "on"].contains (pyLower s) then .ok (st, s0, some true)
       else if ["false", "0", "no", "off"].contains (pyLower s) then
         .ok (st, s0, some false)
       else .error (.invalidSettingsValue (absname st key) s (some "boolean") none)) := by
  have hcp : cacheProp env now st s0 = .ok (st, s0) :=
    cacheProp_no_lifespan env now st s0 hl
  unfold boolvalue value
  rw [hcp]
  dsimp only
  rw [hk]

theorem C7_witness :
    boolvalue unitEnv 0 stC7 () "k" none false = .ok (stC7, (), some true)
    ∧ boolvalue unitEnv 0 stC7f () "k" none false = .ok (stC7f, (), some false)
    ∧ boolvalue unitEnv 0 stC7x () "k" none false =
        .error (.invalidSettingsValue "k" "maybe" (some "boolean") none) := by
  refine ⟨?_, ?_, ?_⟩
  · rw [C7_boolvalue unitEnv 0 stC7 () "k" "YES" none false rfl rfl]
    rfl
  · rw [C7_boolvalue unitEnv 0 stC7f () "k" "Off" none false rfl rfl]
    rfl
  · rw [C7_boolvalue unitEnv 0 stC7x () "k" "maybe" none false rfl rfl]
    rfl

/-- Claim C8: the `listvalue` string conversion agrees with the
specification's description on every input — trim, empty to empty
list, one bracket layer stripped, separator-free remainder a singleton
unless empty, otherwise split and trim — and on the spec's examples
yields the stated lists. -/
theorem C8_listvalue :
    (∀ sep v : String, listvalueConvert sep v = specListvalueConvert sep v)
    ∧ listvalueConvert "," "[a, b, c]" = ["a", "b", "c"]
    ∧ listvalueConvert "," "(a,b,c)" = ["a", "b", "c"]
    ∧ listvalueConvert "," "a,b,c" = ["a", "b", "c"]
    ∧ listvalueConvert "," "" = []
    ∧ listvalueConvert "," "[]" = [] := by
  refine ⟨?_, by decide, by decide, by decide, by decide, by decide⟩
  intro sep v
  unfold listvalueConvert specListvalueConvert
  rw [listvalueChars_eq_spec]

/-- Claim C9, counterexample: inside current group `G` with `G/k`
cached, `remove('k')` marks the literal key `k`, so the following
`value('k', default='D')` still returns the cached `v` rather than the
default, and `value('k', required=True)` does not raise. -/
theorem C9_counterexample :
    remove unitEnv 0 stC9 () "k" = .ok (stC9r, ())
    ∧ value unitEnv 0 stC9r () "k" (some "D") false = .ok (stC9r, (), some "v")
    ∧ value unitEnv 0 stC9r () "k" none true = .ok (stC9r, (), some "v")
    ∧ some "v" ≠ some "D" := by
  refine ⟨rfl, rfl, rfl, by decide⟩

/-- Claim C9 as amended: when the current group is empty and no
automatic sync intervenes (cache lifespan disabled), `remove(k)`
followed by `value(k, default=D)` returns `D`, and
`value(k, required=True)` raises `MissingRequiredSettingsValue`
carrying the key and the searched location list. -/
theorem C9_remove_then_value {σ : Type} (env : Env σ) (now : Int) (st : SettingsState)
    (s0 : σ) (k : String) (D : Option String)
    (hg : groupProp st = "") (hl : st.cache_lifespan = none) :
    remove env now st s0 k = .ok (removeResult st k, s0)
    ∧ value env now (removeResult st k) s0 k D false = .ok (removeResult st k, s0, D)
    ∧ value env now (removeResult st k) s0 k none true =
        .error (.missingRequiredSettingsValue k none st.locations) := by
  have hcp := cacheProp_no_lifespan env now st s0 hl
  have hl2 : (removeResult st k).cache_lifespan = none := hl
  have hg2 : groupProp (removeResult st k) = "" := hg
  have ha : absname (removeResult st k) k = k := by
    unfold absname
    rw [if_pos hg2]
  have hd : dget (removeResult st k).cache k = some none := dget_dset_self st.cache k none
  refine ⟨?_, ?_, ?_⟩
  · unfold remove
    rw [hcp]
    rfl
  · unfold value
    rw [cacheProp_no_lifespan env now (removeResult st k) s0 hl2]
    dsimp only
    rw [ha, hd]
    rfl
  · unfold value
    rw [cacheProp_no_lifespan env now (removeResult st k) s0 hl2]
    dsimp only
    rw [ha, hd]
    rfl

theorem C9_witness :
    remove unitEnv 0 stC9w () "k" = .ok (removeResult stC9w "k", ())
    ∧ value unitEnv 0 (removeResult stC9w "k") () "k" (some "D") false
        = .ok (removeResult stC9w "k", (), some "D")
    ∧ value unitEnv 0 (removeResult stC9w "k") () "k" none true
        = .error (.missingRequiredSettingsValue "k" none stC9w.locations) :=
  C9_remove_then_value unitEnv 0 stC9w () "k" (some "D") rfl rfl

/-- Claim C10: `remove` and `contains` use the caller-supplied key
literally while `value` and `set_value` resolve it against the current
group; in a non-empty group the resolved name differs from the literal
key, `remove('k')` marks `k` absent and dirty leaving the resolved key
untouched, `contains('k')` tests `k`, and `set_value`/`value` write and
read the resolved key. -/
theorem C10_literal_keys {σ : Type} (env : Env σ) (now : Int) (st : SettingsState)
    (s0 : σ) (k v : String) (d : Option String)
    (hl : st.cache_lifespan = none) (hg : groupProp st ≠ "") :
    absname st k = groupProp st ++ "/" ++ k
    ∧ absname st k ≠ k
    ∧ remove env now st s0 k = .ok (removeResult st k, s0)
    ∧ dget (removeResult st k).cache k = some none
    ∧ k ∈ (removeResult st k).keystowrite
    ∧ dget (removeResult st k).cache (absname st k) = dget st.cache (absname st k)
    ∧ contains env now st s0 k = .ok (st, s0, (dget st.cache k).isSome)
    ∧ set_value env now st s0 k v = .ok (setValueResult st k v, s0)
    ∧ dget (setValueResult st k v).cache (absname st k) = some (some v)
    ∧ absname st k ∈ (setValueResult st k v).keystowrite
    ∧ value env now st s0 k d false =
        .ok (st, s0, match dget st.cache (absname st k) with
                     | some (some x) => some x
                     | _ => d) := by
  have hcp := cacheProp_no_lifespan env now st s0 hl
  have h1 : absname st k = groupProp st ++ "/" ++ k := by
    unfold absname
    rw [if_neg hg]
  have h2 : absname st k ≠ k := by
    rw [h1]
    intro he
    have hlen := congrArg String.length he
    simp only [String.length_append] at hlen
    have : ("/" : String).length = 1 := rfl
    omega
  refine ⟨h1, h2, ?_, dget_dset_self st.cache k none, mem_setAdd_self _ k,
          dget_dset_ne st.cache k (absname st k) none h2, ?_, ?_,
          dget_dset_self st.cache (absname st k) (some v),
          mem_setAdd_self _ (absname st k), ?_⟩
  · unfold remove
    rw [hcp]
    rfl
  · unfold contains
    rw [hcp]
  · unfold set_value
    rw [hcp]
    rfl
  · unfold value
    rw [hcp]
    dsimp only
    rcases hv : dget st.cache (absname st k) with _ | ov
    · rfl
    · rcases ov with _ | x <;> rfl

theorem C10_witness :
    absname stC10 "k" = groupProp stC10 ++ "/" ++ "k"
    ∧ absname stC10 "k" ≠ "k"
    ∧ remove unitEnv 0 stC10 () "k" = .ok (removeResult stC10 "k", ())
    ∧ dget (removeResult stC10 "k").cache "k" = some none
    ∧ "k" ∈ (removeResult stC10 "k").keystowrite
    ∧ dget (removeResult stC10 "k").cache (absname stC10 "k") =
        dget stC10.cache (absname stC10 "k")
    ∧ contains unitEnv 0 stC10 () "k" = .ok (stC10, (), (dget stC10.cache "k").isSome)
    ∧ set_value unitEnv 0 stC10 () "k" "v" = .ok (setValueResult stC10 "k" "v", ())
    ∧ dget (setValueResult stC10 "k" "v").cache (absname stC10 "k") = some (some "v")
    ∧ absname stC10 "k" ∈ (setValueResult stC10 "k" "v").keystowrite
    ∧ value unitEnv 0 stC10 () "k" (some "D") false =
        .ok (stC10, (), match dget stC10.cache (absname stC10 "k") with
                        | some (some x) => some x
                        | _ => some "D") :=
  C10_literal_keys unitEnv 0 stC10 () "k" "v" (some "D") rfl (by decide)

end SpruceSettings
